import Mathlib

/-!
Shallow embedding of the Trading Safety & Session Core of the
capitalcom-mcp-server repository (Python), covering:

  * `capital_mcp/rate_limit.py`  — `TokenBucket`, `RateLimiter`
  * `capital_mcp/config.py`      — the configuration fields and `is_epic_allowed`
  * `capital_mcp/models.py`      — `SessionTokens`, `PreviewResult`, `RiskCheck`,
                                   the preview request models, `PriceTick`
  * `capital_mcp/risk.py`        — `RiskEngine`
  * `capital_mcp/session.py`     — `SessionManager.login`
  * `capital_mcp/websocket_client.py` — subscription management, reconnection,
                                   message parsing

Modelling conventions: Python floats and wall-clock instants are modelled as
exact rationals (`ℚ`); `datetime` differences are a subtraction of rationals.
Python dictionaries are association lists whose assignment replaces the
existing binding in place.  Fallible Python code (raising) is `Except`,
with caught exception classes mapped back to the value the handler returns.
Network calls are parameters: the outcome of a call is passed in as an
`Except` value, so every branch of the Python code stays represented.
-/

namespace CapitalMcp

/-- Python `min` on two rationals (written out so that concrete instances
evaluate). -/
def ratMin (a b : ℚ) : ℚ := if a ≤ b then a else b

theorem ratMin_eq_min (a b : ℚ) : ratMin a b = min a b := by
  unfold ratMin
  split
  · rename_i h
    exact (min_eq_left h).symm
  · rename_i h
    exact (min_eq_right (le_of_not_le h)).symm

/-! ## rate_limit.py: TokenBucket -/

/-- State of a `TokenBucket` (`rate_limit.py`, lines 8-30): `capacity`,
`refill_rate`, current `tokens`, and `last_refill`, the monotonic-clock
instant of the last refill. -/
structure TokenBucket where
  capacity : ℚ
  refill_rate : ℚ
  tokens : ℚ
  last_refill : ℚ
  deriving Repr, DecidableEq

/-- `TokenBucket.__init__`: the bucket starts full (`tokens = capacity`) with
`last_refill` set to the current monotonic time. -/
def TokenBucket.mk0 (capacity refill_rate now : ℚ) : TokenBucket :=
  { capacity := capacity, refill_rate := refill_rate,
    tokens := capacity, last_refill := now }

/-- `TokenBucket._refill`: add `elapsed * refill_rate` tokens, capped at
`capacity`, and reset `last_refill` to `now`. -/
def TokenBucket.refill (b : TokenBucket) (now : ℚ) : TokenBucket :=
  { b with tokens := ratMin b.capacity (b.tokens + (now - b.last_refill) * b.refill_rate),
           last_refill := now }

/-- `TokenBucket.try_acquire` (also the body of one iteration of
`TokenBucket.acquire`): refill, then deduct `n` tokens if at least `n` are
available.  Returns whether the deduction happened together with the new
bucket state. -/
def TokenBucket.try_acquire (b : TokenBucket) (n now : ℚ) : Bool × TokenBucket :=
  let b1 := b.refill now
  if n ≤ b1.tokens then (true, { b1 with tokens := b1.tokens - n })
  else (false, b1)

/-- `TokenBucket.available_tokens`: refill, then read the token count. -/
def TokenBucket.available_tokens (b : TokenBucket) (now : ℚ) : ℚ :=
  (b.refill now).tokens

/-- One observable operation on a bucket.  `acquire` is a loop of
`try_acquire` attempts at successive poll instants (10 ms apart in the
source), and `available_tokens` performs a bare refill, so every method of
the class is a finite sequence of these two operations. -/
inductive BucketOp where
  | refillOp (now : ℚ)
  | tryAcquireOp (n now : ℚ)
  deriving Repr, DecidableEq

/-- Apply one operation to a bucket state. -/
def TokenBucket.applyOp (b : TokenBucket) : BucketOp → TokenBucket
  | .refillOp now => b.refill now
  | .tryAcquireOp n now => (b.try_acquire n now).2

/-- Apply a sequence of operations. -/
def TokenBucket.runOps (b : TokenBucket) : List BucketOp → TokenBucket
  | [] => b
  | op :: ops => (b.applyOp op).runOps ops

/-- An operation is well-formed for a bucket when its time stamp does not
precede the bucket's `last_refill` (the source reads a monotonic clock) and
a requested amount is nonnegative (the source only ever requests `1.0`). -/
def BucketOp.validFor (b : TokenBucket) : BucketOp → Bool
  | .refillOp now => b.last_refill ≤ now
  | .tryAcquireOp n now => b.last_refill ≤ now && 0 ≤ n

/-- Well-formedness of a whole operation sequence against a starting state. -/
def TokenBucket.validOps (b : TokenBucket) : List BucketOp → Bool
  | [] => true
  | op :: ops => op.validFor b && (b.applyOp op).validOps ops

/-- The bucket invariant of the claim: `0 ≤ tokens ≤ capacity`. -/
def TokenBucket.inv (b : TokenBucket) : Prop :=
  0 ≤ b.tokens ∧ b.tokens ≤ b.capacity

/-! ## rate_limit.py: RateLimiter -/

/-- State of the three-tier `RateLimiter` (`rate_limit.py`, lines 88-106). -/
structure RateLimiter where
  global_limiter : TokenBucket
  session_limiter : TokenBucket
  trading_limiter : TokenBucket
  deriving Repr, DecidableEq

/-- `RateLimiter.__init__` at monotonic time `now`: global 10/10, session 1/1,
trading 10/10. -/
def RateLimiter.mk0 (now : ℚ) : RateLimiter :=
  { global_limiter := TokenBucket.mk0 10 10 now,
    session_limiter := TokenBucket.mk0 1 1 now,
    trading_limiter := TokenBucket.mk0 10 10 now }

/-- `TokenBucket.acquire`: repeatedly `try_acquire` at each poll instant of
`times`; the timeout check after the last failed attempt returns `false`.
An empty `times` list is a degenerate immediate timeout. -/
def TokenBucket.acquireLoop (b : TokenBucket) (n : ℚ) : List ℚ → Bool × TokenBucket
  | [] => (false, b)
  | t :: ts =>
      let r := b.try_acquire n t
      if r.1 then (true, r.2) else r.2.acquireLoop n ts

/-- `RateLimiter.acquire_session` (`rate_limit.py`, lines 120-133): first the
global bucket must grant a token; only then is the session bucket consulted.
`gTimes` and `sTimes` are the poll schedules of the two inner `acquire`
calls. -/
def RateLimiter.acquire_session (rl : RateLimiter) (gTimes sTimes : List ℚ) :
    Bool × RateLimiter :=
  let g := rl.global_limiter.acquireLoop 1 gTimes
  if !g.1 then (false, { rl with global_limiter := g.2 })
  else
    let s := rl.session_limiter.acquireLoop 1 sTimes
    (s.1, { rl with global_limiter := g.2, session_limiter := s.2 })

/-- `RateLimiter.acquire_trading` (`rate_limit.py`, lines 135-148): same
composite structure over the trading bucket. -/
def RateLimiter.acquire_trading (rl : RateLimiter) (gTimes tTimes : List ℚ) :
    Bool × RateLimiter :=
  let g := rl.global_limiter.acquireLoop 1 gTimes
  if !g.1 then (false, { rl with global_limiter := g.2 })
  else
    let t := rl.trading_limiter.acquireLoop 1 tTimes
    (t.1, { rl with global_limiter := g.2, trading_limiter := t.2 })

/-! ## Python string primitives

The Python string methods the core calls (`strip`, `split`, `upper`,
`startswith`, `replace`, the substring `in`) are modelled directly over the
character list of the string, following Python semantics. -/

/-- Python `str.strip()`: drop whitespace from both ends. -/
def pyStrip (s : String) : String :=
  ((s.toList.dropWhile Char.isWhitespace).reverse.dropWhile
    Char.isWhitespace).reverse.asString

/-- Split a character list at every occurrence of `c` (Python
`str.split(c)` for a one-character separator). -/
def splitCharAux (c : Char) : List Char → List Char → List (List Char)
  | [], acc => [acc.reverse]
  | x :: xs, acc =>
      if x = c then acc.reverse :: splitCharAux c xs []
      else splitCharAux c xs (x :: acc)

/-- Python `s.split(",")`. -/
def pySplitComma (s : String) : List String :=
  (splitCharAux ',' s.toList []).map List.asString

/-- Python `str.upper()` (the identifiers involved are ASCII). -/
def pyUpper (s : String) : String :=
  (s.toList.map Char.toUpper).asString

/-- Whether the second list is a leading segment of the first. -/
def listStartsWith : List Char → List Char → Bool
  | _, [] => true
  | [], _ :: _ => false
  | a :: as, b :: bs => a = b && listStartsWith as bs

/-- Python `s.startswith(pre)`. -/
def pyStartsWith (s pre : String) : Bool :=
  listStartsWith s.toList pre.toList

/-- Replace every non-overlapping occurrence of `oldL` (left to right) by
`newL`; the fuel argument starts at the list length, which bounds the
number of steps since `oldL` is nonempty at every use site. -/
def replaceFuel (oldL newL : List Char) : ℕ → List Char → List Char
  | 0, l => l
  | _ + 1, [] => []
  | n + 1, x :: xs =>
      if listStartsWith (x :: xs) oldL then
        newL ++ replaceFuel oldL newL n ((x :: xs).drop oldL.length)
      else x :: replaceFuel oldL newL n xs

/-- Python `s.replace(old, new)` for a nonempty `old` (the source only
replaces the literal `market.`). -/
def pyReplace (s old new : String) : String :=
  if old.isEmpty then s
  else (replaceFuel old.toList new.toList s.toList.length s.toList).asString

/-- Whether `subL` occurs inside the list. -/
def containsSubAux (subL : List Char) : List Char → Bool
  | [] => listStartsWith [] subL
  | x :: xs => listStartsWith (x :: xs) subL || containsSubAux subL xs

/-- Python substring test `sub in s`. -/
def pyInStr (sub s : String) : Bool :=
  containsSubAux sub.toList s.toList

/-! ## config.py -/

/-- The configuration fields consumed by the core (`config.py`, class
`Config`).  Credentials, URLs and logging fields play no part in the claims
and are omitted; all safety-relevant fields are present. -/
structure Config where
  cap_allow_trading : Bool
  cap_allowed_epics : String
  cap_max_position_size : ℚ
  cap_max_orders_per_day : ℕ
  cap_require_explicit_confirm : Bool
  cap_dry_run : Bool
  cap_default_account_id : Option String
  cap_ws_enabled : Bool
  cap_preview_cache_ttl_s : ℕ
  deriving Repr, DecidableEq

/-- `Config.allowed_epics_list` (`config.py`, lines 115-120): split the
comma-separated allowlist, trim each entry, drop empties. -/
def Config.allowed_epics_list (cfg : Config) : List String :=
  if (pyStrip cfg.cap_allowed_epics).isEmpty then []
  else ((pySplitComma cfg.cap_allowed_epics).map pyStrip).filter (fun e => !e.isEmpty)

/-- `Config.is_epic_allowed` (`config.py`, lines 122-132): false when trading
is disabled or the allowlist is empty; true when the first entry is the ALL
wildcard; otherwise case-insensitive membership. -/
def Config.is_epic_allowed (cfg : Config) (epic : String) : Bool :=
  if !cfg.cap_allow_trading then false
  else
    match cfg.allowed_epics_list with
    | [] => false
    | a0 :: rest =>
        if pyUpper a0 = "ALL" then true
        else ((a0 :: rest).map pyUpper).contains (pyUpper epic)

/-! ## models.py: enums, requests, checks, previews -/

/-- `Direction` enum. -/
inductive Direction where
  | BUY
  | SELL
  deriving Repr, DecidableEq

/-- The `.value` string of a `Direction` member. -/
def Direction.value : Direction → String
  | .BUY => "BUY"
  | .SELL => "SELL"

/-- `WorkingOrderType` enum. -/
inductive WorkingOrderType where
  | LIMIT
  | STOP
  deriving Repr, DecidableEq

/-- The `.value` string of a `WorkingOrderType` member. -/
def WorkingOrderType.value : WorkingOrderType → String
  | .LIMIT => "LIMIT"
  | .STOP => "STOP"

/-- `RiskCheck` model: one named check with outcome and message. -/
structure RiskCheck where
  check : String
  passed : Bool
  message : String
  deriving Repr, DecidableEq

/-- Values stored in a normalized-request dictionary (`model_dump` output
plus the fields the risk engine writes into it). -/
inductive PyVal where
  | str (v : String)
  | rat (v : ℚ)
  | boolV (v : Bool)
  | noneV
  | strList (v : List String)
  deriving Repr, DecidableEq

/-- `PreviewPositionRequest` model (`models.py`, lines 149-162).  Sizes and
levels are exact rationals. -/
structure PreviewPositionRequest where
  epic : String
  direction : Direction
  size : ℚ
  guaranteed_stop : Bool
  trailing_stop : Bool
  stop_level : Option ℚ
  stop_distance : Option ℚ
  stop_amount : Option ℚ
  profit_level : Option ℚ
  profit_distance : Option ℚ
  profit_amount : Option ℚ
  deriving Repr, DecidableEq

/-- `PreviewWorkingOrderRequest` model (`models.py`, lines 165-181). -/
structure PreviewWorkingOrderRequest where
  epic : String
  direction : Direction
  type : WorkingOrderType
  level : ℚ
  size : ℚ
  guaranteed_stop : Bool
  trailing_stop : Bool
  stop_level : Option ℚ
  stop_distance : Option ℚ
  stop_amount : Option ℚ
  profit_level : Option ℚ
  profit_distance : Option ℚ
  profit_amount : Option ℚ
  good_till_date : Option String
  deriving Repr, DecidableEq

/-- An optional float dumped to JSON: the number or `null`. -/
def optVal : Option ℚ → PyVal
  | some v => .rat v
  | none => .noneV

/-- `request.model_dump(mode=json)`: the request fields in declaration
order, enums serialized as their value strings. -/
def PreviewPositionRequest.model_dump (r : PreviewPositionRequest) :
    List (String × PyVal) :=
  [("epic", .str r.epic), ("direction", .str r.direction.value),
   ("size", .rat r.size), ("guaranteed_stop", .boolV r.guaranteed_stop),
   ("trailing_stop", .boolV r.trailing_stop),
   ("stop_level", optVal r.stop_level), ("stop_distance", optVal r.stop_distance),
   ("stop_amount", optVal r.stop_amount), ("profit_level", optVal r.profit_level),
   ("profit_distance", optVal r.profit_distance),
   ("profit_amount", optVal r.profit_amount)]

/-- `PreviewResult` model (`models.py`, lines 192-208).  `created_at` is the
insertion instant; `preview_id` is the uuid4 drawn at construction. -/
structure PreviewResult where
  preview_id : String
  normalized_request : List (String × PyVal)
  checks : List RiskCheck
  all_checks_passed : Bool
  estimated_entry : Option ℚ
  estimated_risk_notes : Option String
  created_at : ℚ
  deriving Repr, DecidableEq

/-- `PreviewResult.is_expired` (`models.py`, lines 205-208):
`now - created_at ≥ ttl_seconds`. -/
def PreviewResult.is_expired (p : PreviewResult) (ttl_seconds : ℕ) (now : ℚ) : Bool :=
  decide ((ttl_seconds : ℚ) ≤ now - p.created_at)

/-! ## Association-list model of Python dictionaries -/

/-- Dictionary lookup (first binding wins; the code never builds duplicate
keys). -/
def lookupA {α : Type} : List (String × α) → String → Option α
  | [], _ => none
  | (k0, v0) :: rest, k => if k0 = k then some v0 else lookupA rest k

/-- Dictionary assignment `d[k] = v`: replace the existing binding or append
a new one. -/
def insertA {α : Type} : List (String × α) → String → α → List (String × α)
  | [], k, v => [(k, v)]
  | (k0, v0) :: rest, k, v =>
      if k0 = k then (k0, v) :: rest else (k0, v0) :: insertA rest k v

/-- Dictionary deletion `del d[k]`. -/
def eraseA {α : Type} : List (String × α) → String → List (String × α)
  | [], _ => []
  | (k0, v0) :: rest, k => if k0 = k then rest else (k0, v0) :: eraseA rest k

/-! ## risk.py: RiskEngine -/

/-- Mutable state of a `RiskEngine` (`risk.py`, lines 41-50): the preview
cache and the daily order counter. -/
structure RiskState where
  preview_cache : List (String × PreviewResult)
  order_count : ℕ
  order_count_date : Option String
  deriving Repr, DecidableEq

/-- Market data consumed by `preview_position` after
`GET /markets/{epic}`: the three dealing-rule values and the snapshot
bid/offer, each `none` when the corresponding JSON path is absent. -/
structure MarketData where
  minDealSize : Option ℚ
  maxDealSize : Option ℚ
  minSizeIncrement : Option ℚ
  snapshot_bid : Option ℚ
  snapshot_offer : Option ℚ
  deriving Repr, DecidableEq

/-- Python `round`: round half to even (banker's rounding), on exact
rationals. -/
def pyRound (q : ℚ) : ℤ :=
  let f := ⌊q⌋
  let r := q - f
  if r < 1/2 then f
  else if 1/2 < r then f + 1
  else if f % 2 = 0 then f else f + 1

/-- `RiskEngine._normalize_size` (`risk.py`, lines 87-119): round to the
nearest increment, then clamp into `[min_size, max_size]`, recording a
warning for each adjustment. -/
def RiskEngine.normalize_size (size min_size max_size increment : ℚ) :
    ℚ × List String :=
  let normalized := (pyRound (size / increment) : ℚ) * increment
  let warnings :=
    if 1/10000 < |normalized - size| then
      ["Size rounded from " ++ toString size ++ " to " ++ toString normalized ++
       " (increment: " ++ toString increment ++ ")"]
    else []
  if normalized < min_size then
    (min_size, warnings ++ ["Size increased to minimum: " ++ toString min_size])
  else if max_size < normalized then
    (max_size, warnings ++ ["Size decreased to maximum: " ++ toString max_size])
  else (normalized, warnings)

/-- `RiskEngine._check_daily_limit` (`risk.py`, lines 52-72): reset the
counter on a new UTC date, then compare against the ceiling.  `today` is
`datetime.utcnow().date().isoformat()`. -/
def RiskEngine.check_daily_limit (cfg : Config) (st : RiskState) (today : String) :
    RiskCheck × RiskState :=
  let st1 :=
    if st.order_count_date ≠ some today then
      { st with order_count := 0, order_count_date := some today }
    else st
  if cfg.cap_max_orders_per_day ≤ st1.order_count then
    (⟨"daily_order_limit", false,
      "Daily order limit reached (" ++ toString cfg.cap_max_orders_per_day ++ ")"⟩, st1)
  else
    (⟨"daily_order_limit", true,
      "Daily orders: " ++ toString st1.order_count ++ "/" ++
      toString cfg.cap_max_orders_per_day⟩, st1)

/-- `RiskEngine.increment_order_count` (`risk.py`, lines 74-80). -/
def RiskEngine.increment_order_count (st : RiskState) (today : String) : RiskState :=
  let st1 :=
    if st.order_count_date ≠ some today then
      { st with order_count := 0, order_count_date := some today }
    else st
  { st1 with order_count := st1.order_count + 1 }

/-- A short-circuit `PreviewResult` of `preview_position`: empty normalized
request, the checks executed so far, `all_checks_passed = False`; the uuid
and `created_at` default factories still run. -/
def failResult (newId : String) (now : ℚ) (checks : List RiskCheck) : PreviewResult :=
  { preview_id := newId, normalized_request := [], checks := checks,
    all_checks_passed := false, estimated_entry := none,
    estimated_risk_notes := none, created_at := now }

/-- `RiskEngine.preview_position` (`risk.py`, lines 121-269).  `net` is the
outcome of the `GET /markets/{epic}` call (`.error` carries the exception
text), `newId` the uuid4 drawn for the constructed `PreviewResult`, `now`
the current instant and `today` the current UTC date string.  Returns the
result together with the engine state after the call.  Messages drop the
Python quote characters around interpolated values but keep their text. -/
def RiskEngine.preview_position (cfg : Config) (st : RiskState)
    (req : PreviewPositionRequest) (net : Except String MarketData)
    (newId : String) (now : ℚ) (today : String) : PreviewResult × RiskState :=
  -- Check 1: trading enabled
  if !cfg.cap_allow_trading then
    (failResult newId now
      [⟨"trading_enabled", false, "Trading is disabled (CAP_ALLOW_TRADING=false)"⟩], st)
  else
    let checks1 : List RiskCheck :=
      [⟨"trading_enabled", true, "Trading is enabled"⟩]
    -- Check 2: epic allowlist
    if !cfg.is_epic_allowed req.epic then
      (failResult newId now
        (checks1 ++ [⟨"epic_allowed", false, "Epic " ++ req.epic ++ " not in allowlist"⟩]), st)
    else
      let checks2 := checks1 ++ [⟨"epic_allowed", true, "Epic " ++ req.epic ++ " is allowed"⟩]
      -- Check 3: daily order limit
      let daily := RiskEngine.check_daily_limit cfg st today
      let checks3 := checks2 ++ [daily.1]
      if !daily.1.passed then (failResult newId now checks3, daily.2)
      else
        -- Fetch market details
        match net with
        | .error e =>
            (failResult newId now
              (checks3 ++ [⟨"market_details", false, "Failed to fetch market details: " ++ e⟩]),
             daily.2)
        | .ok md =>
            let checks4 := checks3 ++ [⟨"market_details", true, "Market details fetched"⟩]
            let min_deal_size := md.minDealSize.getD (1/10)
            let max_deal_size := md.maxDealSize.getD 1000
            let min_size_increment := md.minSizeIncrement.getD (1/10)
            -- Check 4: normalize size
            let norm := RiskEngine.normalize_size req.size min_deal_size max_deal_size
              min_size_increment
            -- Check 5: max position size policy
            if cfg.cap_max_position_size < norm.1 then
              (failResult newId now
                (checks4 ++ [⟨"max_position_size", false,
                  "Size " ++ toString norm.1 ++ " exceeds policy limit " ++
                  toString cfg.cap_max_position_size⟩]),
               daily.2)
            else
              let checks5 := checks4 ++ [⟨"max_position_size", true,
                "Size " ++ toString norm.1 ++ " within limit " ++
                toString cfg.cap_max_position_size⟩]
              let nreq0 := req.model_dump
              let nreq1 := insertA nreq0 "size" (.rat norm.1)
              let nreq := insertA nreq1 "size_warnings" (.strList norm.2)
              let estimated_entry :=
                if req.direction = Direction.BUY then md.snapshot_offer
                else md.snapshot_bid
              let result : PreviewResult :=
                { preview_id := newId, normalized_request := nreq, checks := checks5,
                  all_checks_passed := checks5.all (fun c => c.passed),
                  estimated_entry := estimated_entry,
                  estimated_risk_notes :=
                    some "Preview only; actual execution may differ based on market conditions.",
                  created_at := now }
              (result, { daily.2 with
                preview_cache := insertA daily.2.preview_cache newId result })

/-- Conversion of a working-order request into the position-shaped request
used for validation (`risk.py`, lines 275-288). -/
def PreviewWorkingOrderRequest.toPositionRequest (r : PreviewWorkingOrderRequest) :
    PreviewPositionRequest :=
  { epic := r.epic, direction := r.direction, size := r.size,
    guaranteed_stop := r.guaranteed_stop, trailing_stop := r.trailing_stop,
    stop_level := r.stop_level, stop_distance := r.stop_distance,
    stop_amount := r.stop_amount, profit_level := r.profit_level,
    profit_distance := r.profit_distance, profit_amount := r.profit_amount }

/-- `RiskEngine.preview_working_order` (`risk.py`, lines 271-300): run the
position pipeline, then, when all checks passed, write the order type,
trigger level and (when truthy) good-till date into the normalized request.
In Python this mutates the dictionary aliased by the cache, so the cached
entry is re-inserted with the augmented result here. -/
def RiskEngine.preview_working_order (cfg : Config) (st : RiskState)
    (req : PreviewWorkingOrderRequest) (net : Except String MarketData)
    (newId : String) (now : ℚ) (today : String) : PreviewResult × RiskState :=
  let r := RiskEngine.preview_position cfg st req.toPositionRequest net newId now today
  if r.1.all_checks_passed then
    let nreq1 := insertA r.1.normalized_request "type" (.str req.type.value)
    let nreq2 := insertA nreq1 "level" (.rat req.level)
    let nreq3 :=
      match req.good_till_date with
      | some d => if !d.isEmpty then insertA nreq2 "good_till_date" (.str d) else nreq2
      | none => nreq2
    let result := { r.1 with normalized_request := nreq3 }
    (result, { r.2 with preview_cache := insertA r.2.preview_cache r.1.preview_id result })
  else r

/-- Errors raised by `get_preview` (`PreviewError` codes). -/
inductive PreviewErr where
  | notFound
  | expired
  deriving Repr, DecidableEq

/-- `RiskEngine.get_preview` (`risk.py`, lines 302-324): not-found when the
id is absent; lazy eviction plus the expired error when the entry's age has
reached the TTL; otherwise the cached entry, cache untouched. -/
def RiskEngine.get_preview (cfg : Config) (st : RiskState) (preview_id : String)
    (now : ℚ) : Except PreviewErr PreviewResult × RiskState :=
  match lookupA st.preview_cache preview_id with
  | none => (.error .notFound, st)
  | some preview =>
      if preview.is_expired cfg.cap_preview_cache_ttl_s now then
        (.error .expired, { st with preview_cache := eraseA st.preview_cache preview_id })
      else (.ok preview, st)

/-- Errors raised by `validate_execution_guards`. -/
inductive GuardErr where
  | tradingDisabled
  | dryRun
  | confirmRequired
  | previewNotFound
  | previewExpired
  | previewChecksFailed
  deriving Repr, DecidableEq

/-- Python truthiness of an optional string (`if preview_id:`): `None` and
the empty string are falsy. -/
def optStrTruthy : Option String → Bool
  | none => false
  | some s => !s.isEmpty

/-- `RiskEngine.validate_execution_guards` (`risk.py`, lines 326-361): the
four guards in order — trading disabled, dry-run, confirmation required,
then (for a truthy preview id) existence, freshness and all-checks-passed of
the preview.  Returns the engine state after the call (a lookup of an
expired preview evicts it). -/
def RiskEngine.validate_execution_guards (cfg : Config) (st : RiskState)
    (confirm : Bool) (preview_id : Option String) (now : ℚ) :
    Except GuardErr Unit × RiskState :=
  if !cfg.cap_allow_trading then (.error .tradingDisabled, st)
  else if cfg.cap_dry_run then (.error .dryRun, st)
  else if cfg.cap_require_explicit_confirm && !confirm then (.error .confirmRequired, st)
  else if optStrTruthy preview_id then
    let r := RiskEngine.get_preview cfg st ((preview_id).getD "") now
    match r.1 with
    | .error .notFound => (.error .previewNotFound, r.2)
    | .error .expired => (.error .previewExpired, r.2)
    | .ok preview =>
        if !preview.all_checks_passed then (.error .previewChecksFailed, r.2)
        else (.ok (), r.2)
  else (.ok (), st)

/-! ## session.py: SessionManager -/

/-- `SessionTokens` model (`models.py`, lines 87-101): the two credential
tokens and the sliding-expiry timestamp. -/
structure SessionTokens where
  cst : String
  x_security_token : String
  last_used_at : ℚ
  deriving Repr, DecidableEq

/-- `SessionTokens.is_expired` (`models.py`, lines 94-97):
`now - last_used_at ≥ 540`. -/
def SessionTokens.is_expired (tk : SessionTokens) (now : ℚ) : Bool :=
  decide ((540 : ℚ) ≤ now - tk.last_used_at)

/-- Mutable state of a `SessionManager` together with the
`client.session_tokens` field it mirrors (`session.py`, lines 28-33). -/
structure SessionState where
  tokens : Option SessionTokens
  account_id : Option String
  client_session_tokens : Option SessionTokens
  deriving Repr, DecidableEq

/-- The observable parts of a `POST /session` response: the two credential
headers (absent headers are `none`) and the `currentAccountId` body field. -/
structure LoginResponse where
  header_cst : Option String
  header_xst : Option String
  currentAccountId : Option String
  deriving Repr, DecidableEq

/-- Errors propagated out of `login`. -/
inductive SessionErr where
  | network (e : String)
  | missingTokens
  | switchFailed (e : String)
  deriving Repr, DecidableEq

/-- Outcomes of a completed `login` call. -/
inductive LoginOutcome where
  | alreadyActive
  | loggedIn
  deriving Repr, DecidableEq

/-- The body of the `try` block of `login` (`session.py`, lines 63-107):
POST, extract the two credential headers, store tokens, optionally switch
accounts; the `except` clause clears both the manager's and the client's
tokens before re-raising, so every error outcome carries the cleared
state. -/
def SessionManager.login_network (cfg : Config) (st : SessionState)
    (account_id : Option String) (now : ℚ) (net : Except String LoginResponse)
    (switchNet : Except String Unit) : SessionState × Except SessionErr LoginOutcome :=
  match net with
  | .error e =>
      ({ st with tokens := none, client_session_tokens := none }, .error (.network e))
  | .ok resp =>
      if !optStrTruthy resp.header_cst || !optStrTruthy resp.header_xst then
        ({ st with tokens := none, client_session_tokens := none }, .error .missingTokens)
      else
        let tk : SessionTokens :=
          { cst := resp.header_cst.getD "", x_security_token := resp.header_xst.getD "",
            last_used_at := now }
        let accId :=
          match resp.currentAccountId with
          | some a => some a
          | none => st.account_id
        let st1 : SessionState :=
          { tokens := some tk, account_id := accId, client_session_tokens := some tk }
        let target :=
          if optStrTruthy account_id then account_id else cfg.cap_default_account_id
        if optStrTruthy target && target ≠ st1.account_id then
          match switchNet with
          | .error e =>
              ({ st1 with tokens := none, client_session_tokens := none },
               .error (.switchFailed e))
          | .ok _ => ({ st1 with account_id := target }, .ok .loggedIn)
        else (st1, .ok .loggedIn)

/-- `SessionManager.login` (`session.py`, lines 35-107).  `net` is the
outcome of the `POST /session` transport call and `switchNet` that of the
`PUT /session` account switch when one is attempted.  When the session is
still valid and no force flag is set, the call short-circuits without any
network activity. -/
def SessionManager.login (cfg : Config) (st : SessionState) (force : Bool)
    (account_id : Option String) (now : ℚ) (net : Except String LoginResponse)
    (switchNet : Except String Unit) : SessionState × Except SessionErr LoginOutcome :=
  match st.tokens with
  | some tk =>
      if !force && !tk.is_expired now then (st, .ok .alreadyActive)
      else SessionManager.login_network cfg st account_id now net switchNet
  | none => SessionManager.login_network cfg st account_id now net switchNet

/-! ## websocket_client.py: WebSocketClient -/

/-- Mutable state of a `WebSocketClient` (`websocket_client.py`, lines
39-44): whether a connection object is held, the subscription set (kept as
an insertion-ordered duplicate-free list) and the last-ping instant. -/
structure WebSocketClient where
  connected : Bool
  subscribed_epics : List String
  last_ping : Option ℚ
  deriving Repr, DecidableEq

/-- `set.add`: insert if absent. -/
def insertSet (l : List String) (e : String) : List String :=
  if e ∈ l then l else l ++ [e]

/-- One subscribe directive sent over the wire (`websocket_client.py`,
lines 127-133). -/
structure SubscribeMsg where
  destination : String
  action : String
  deriving Repr, DecidableEq

/-- Errors raised by `subscribe`: the over-cap `ValueError` and the
not-connected `SessionError`. -/
inductive WSErr where
  | tooManyEpics
  | notConnected
  deriving Repr, DecidableEq

/-- `WebSocketClient.subscribe` (`websocket_client.py`, lines 108-138):
raise when more than 40 epics are requested in this call, raise when not
connected, otherwise send one directive per epic and add each to the
subscription set.  A healthy transport is assumed (a failed send raises
`UpstreamError` mid-loop in the source).  Errors are raised before any
directive is sent, leaving the state unchanged. -/
def WebSocketClient.subscribe (st : WebSocketClient) (epics : List String) :
    Except WSErr (WebSocketClient × List SubscribeMsg) :=
  if 40 < epics.length then .error .tooManyEpics
  else if !st.connected then .error .notConnected
  else
    .ok ({ st with subscribed_epics := epics.foldl insertSet st.subscribed_epics },
         epics.map (fun e => ⟨"market." ++ e, "subscribe"⟩))

/-- `WebSocketClient.close` (`websocket_client.py`, lines 99-106): drop the
connection, clear the subscription set and the ping clock. -/
def WebSocketClient.close (st : WebSocketClient) : WebSocketClient :=
  if st.connected then { connected := false, subscribed_epics := [], last_ping := none }
  else st

/-- `WebSocketClient.connect` on the success path (`websocket_client.py`,
lines 55-97): a connection is opened and the ping clock starts; the
subscription set is not touched.  (Configuration and session failures raise
before any state change and are not needed by the claims settled here.) -/
def WebSocketClient.connectOk (st : WebSocketClient) (now : ℚ) : WebSocketClient :=
  { st with connected := true, last_ping := some now }

/-- Terminal outcomes of the reconnection branch of `stream`. -/
inductive StreamErr where
  | subscribeFailed (e : WSErr)
  | terminal
  deriving Repr, DecidableEq

/-- The connection-loss branch of `WebSocketClient.stream`
(`websocket_client.py`, lines 276-293): when attempts remain, increment the
counter, back off `2 ^ counter` seconds, snapshot the subscription set,
close, reconnect, resubscribe; when attempts are exhausted, fail terminally.
On success returns the new client state, the new counter, and the backoff
duration slept. -/
def WebSocketClient.reconnect_step (st : WebSocketClient)
    (reconnect_count reconnect_attempts : ℕ) (now : ℚ) :
    Except StreamErr (WebSocketClient × ℕ × ℚ) :=
  if reconnect_count < reconnect_attempts then
    let cnt := reconnect_count + 1
    let backoff : ℚ := 2 ^ cnt
    let epics_to_restore := st.subscribed_epics
    let st1 := (st.close).connectOk now
    match st1.subscribe epics_to_restore with
    | .error e => .error (.subscribeFailed e)
    | .ok r => .ok (r.1, cnt, backoff)
  else .error .terminal

/-! ## websocket_client.py: message parsing -/

/-- JSON values as decoded by `json.loads`. -/
inductive Json where
  | null
  | boolJ (b : Bool)
  | num (q : ℚ)
  | strJ (s : String)
  | arr (xs : List Json)
  | obj (fields : List (String × Json))

/-- The Python exceptions the parsing path can raise.  The first three are
the classes named in the `except` clause of `_parse_message`
(`websocket_client.py`, line 216); the last two are not caught there. -/
inductive PyExn where
  | jsonDecodeError
  | keyError
  | valueError
  | typeError
  | attributeError
  deriving Repr, DecidableEq

/-- Whether `_parse_message` catches the exception. -/
def PyExn.caught : PyExn → Bool
  | .jsonDecodeError => true
  | .keyError => true
  | .valueError => true
  | .typeError => false
  | .attributeError => false

/-- Python `==` between a JSON value and a string (used by `in` on lists). -/
def Json.eqStr (j : Json) (s : String) : Bool :=
  match j with
  | .strJ t => t = s
  | _ => false

/-- Python `key in payload`: key membership for dicts, substring test for
strings, equality scan for lists; `TypeError` for non-iterable values. -/
def pyContains (key : String) : Json → Except PyExn Bool
  | .obj fs => .ok (fs.any (fun p => p.1 = key))
  | .strJ s => .ok (pyInStr key s)
  | .arr xs => .ok (xs.any (fun j => j.eqStr key))
  | _ => .error .typeError

/-- Python `payload[key]` with a string key: dict lookup (`KeyError` when
absent); `TypeError` for strings, lists and scalars. -/
def pyIndex (j : Json) (key : String) : Except PyExn Json :=
  match j with
  | .obj fs =>
      match lookupA fs key with
      | some v => .ok v
      | none => .error .keyError
  | _ => .error .typeError

/-- Digits of a nonempty decimal string. -/
def digitsToNat (cs : List Char) : Option ℕ :=
  if cs ≠ [] && cs.all Char.isDigit then
    some (cs.foldl (fun a c => a * 10 + (c.toNat - 48)) 0)
  else none

/-- `float(s)` on the plain sign/decimal forms (exponent, underscore and
inf/nan spellings of the constructor are not modelled; the claims never
exercise them). -/
def parseFloatQ (s : String) : Option ℚ :=
  let t := (pyStrip s).toList
  let signed : ℚ × List Char :=
    match t with
    | '-' :: rest => (-1, rest)
    | '+' :: rest => (1, rest)
    | _ => (1, t)
  match splitCharAux '.' signed.2 [] with
  | [ip] => (digitsToNat ip).map (fun n => signed.1 * n)
  | [ip, fp] =>
      if ip.isEmpty && fp.isEmpty then none
      else
        let ipn := if ip.isEmpty then some 0 else digitsToNat ip
        let fpn := if fp.isEmpty then some 0 else digitsToNat fp
        match ipn, fpn with
        | some a, some b => some (signed.1 * ((a : ℚ) + (b : ℚ) / (10 ^ fp.length)))
        | _, _ => none
  | _ => none

/-- Python `float(v)` on a JSON value: numbers and booleans convert,
numeric strings parse (`ValueError` otherwise), and `None`, lists and dicts
raise `TypeError`. -/
def pyFloat (j : Json) : Except PyExn ℚ :=
  match j with
  | .num q => .ok q
  | .boolJ b => .ok (if b then 1 else 0)
  | .strJ s =>
      match parseFloatQ s with
      | some q => .ok q
      | none => .error .valueError
  | _ => .error .typeError

/-- `dict.get` on the payload (only reached when the payload is a dict). -/
def payloadGet (j : Json) (key : String) : Option Json :=
  match j with
  | .obj fs => lookupA fs key
  | _ => none

/-- `PriceTick` model (`models.py`, lines 284-291).  `change_percent` keeps
the raw JSON value of `payload.get("changePercent")`; its pydantic coercion
is not modelled. -/
structure PriceTick where
  epic : String
  bid : ℚ
  offer : ℚ
  timestamp : String
  change_percent : Option Json

/-- The body of the `try` block of `WebSocketClient._parse_message`
(`websocket_client.py`, lines 192-214).  `decoded` is the `json.loads`
outcome (`none` for a decode error) and `nowIso` the timestamp string.
Evaluation follows the source order: dict test, `payload` membership,
`destination` default-get, `startswith`/`replace` (an `AttributeError` for a
non-string destination), truthiness of the extracted epic, the two
short-circuited `in` tests, then the indexed and float-converted bid and
offer. -/
def parse_message_core (decoded : Option Json) (nowIso : String) :
    Except PyExn (Option PriceTick) :=
  match decoded with
  | none => .error .jsonDecodeError
  | some data =>
      match data with
      | .obj fields =>
          if fields.any (fun p => p.1 = "payload") then
            let payload := (lookupA fields "payload").getD .null
            match (lookupA fields "destination").getD (.strJ "") with
            | .strJ destination =>
                let epic : Option String :=
                  if pyStartsWith destination "market." then
                    some (pyReplace destination "market." "")
                  else none
                match epic with
                | some e =>
                    if !e.isEmpty then do
                      let hasBid ← pyContains "bid" payload
                      if hasBid then do
                        let hasOffer ← pyContains "offer" payload
                        if hasOffer then do
                          let bidJ ← pyIndex payload "bid"
                          let bid ← pyFloat bidJ
                          let offerJ ← pyIndex payload "offer"
                          let offer ← pyFloat offerJ
                          pure (some { epic := e, bid := bid, offer := offer,
                                       timestamp := nowIso,
                                       change_percent := payloadGet payload "changePercent" })
                        else pure none
                      else pure none
                    else pure none
                | none => pure none
            | _ => .error .attributeError
          else pure none
      | _ => pure none

/-- `WebSocketClient._parse_message` (`websocket_client.py`, lines 182-218):
the `try` body with `JSONDecodeError`, `KeyError` and `ValueError` mapped to
the `None` the handler returns; other exceptions propagate. -/
def parse_message (decoded : Option Json) (nowIso : String) :
    Except PyExn (Option PriceTick) :=
  match parse_message_core decoded nowIso with
  | .error e => if e.caught then .ok none else .error e
  | .ok v => .ok v

/-- What one received message does to the stream (`websocket_client.py`,
lines 262-270): a parsed tick is yielded, a `None` parse is skipped, an
uncaught exception aborts the generator. -/
inductive StreamAction where
  | yieldTick (t : PriceTick)
  | skip
  | abort (e : PyExn)

/-- One message-processing step of `stream`. -/
def stream_step (decoded : Option Json) (nowIso : String) : StreamAction :=
  match parse_message decoded nowIso with
  | .ok (some t) => .yieldTick t
  | .ok none => .skip
  | .error e => .abort e

/-! ## Helper lemmas on the dictionary model -/

theorem lookupA_insertA_ne {α : Type} (m : List (String × α)) (k id : String) (v : α)
    (h : k ≠ id) : lookupA (insertA m k v) id = lookupA m id := by
  induction m with
  | nil => simp [insertA, lookupA, h]
  | cons hd tl ih =>
      obtain ⟨k0, v0⟩ := hd
      by_cases hk : k0 = k
      · subst hk
        simp [insertA, lookupA, h]
      · simp [insertA, lookupA, hk, ih]

theorem lookupA_eraseA_ne {α : Type} (m : List (String × α)) (k id : String)
    (h : k ≠ id) : lookupA (eraseA m k) id = lookupA m id := by
  induction m with
  | nil => simp [eraseA, lookupA]
  | cons hd tl ih =>
      obtain ⟨k0, v0⟩ := hd
      by_cases hk : k0 = k
      · subst hk
        simp [eraseA, lookupA, h, ih]
      · simp [eraseA, lookupA, hk, ih]

theorem lookupA_eq_none {α : Type} (m : List (String × α)) (k : String)
    (h : k ∉ m.map Prod.fst) : lookupA m k = none := by
  induction m with
  | nil => simp [lookupA]
  | cons hd tl ih =>
      obtain ⟨k0, v0⟩ := hd
      simp only [List.map_cons, List.mem_cons] at h
      push_neg at h
      have hk : k0 ≠ k := fun hh => h.1 hh.symm
      simp [lookupA, hk, ih h.2]

theorem lookupA_eraseA_self {α : Type} (m : List (String × α)) (k : String)
    (h : (m.map Prod.fst).Nodup) : lookupA (eraseA m k) k = none := by
  induction m with
  | nil => simp [eraseA, lookupA]
  | cons hd tl ih =>
      obtain ⟨k0, v0⟩ := hd
      simp only [List.map_cons, List.nodup_cons] at h
      by_cases hk : k0 = k
      · subst hk
        simp only [eraseA, if_pos rfl]
        exact lookupA_eq_none tl k0 h.1
      · simp [eraseA, lookupA, hk, ih h.2]

/-! ## C1: execution-guard order -/

/-- C1.  `validate_execution_guards` evaluates its guards fail-fast in the
fixed order trading-disabled, dry-run, confirmation-required, preview
validation.  The confirmation failure fires for every preview id and every
cache state, with the engine state returned untouched — no preview lookup
(and, since the function performs no I/O at all, no network call) happens
first.  When the first three guards pass and a (truthy) preview id is
supplied, the call fails unless the preview exists, is unexpired, and has
`all_checks_passed = true`. -/
theorem validate_execution_guards_fail_fast_order
    (cfg : Config) (st : RiskState) (confirm : Bool) (pid : Option String) (now : ℚ) :
    (cfg.cap_allow_trading = false →
      RiskEngine.validate_execution_guards cfg st confirm pid now =
        (.error .tradingDisabled, st)) ∧
    (cfg.cap_allow_trading = true → cfg.cap_dry_run = true →
      RiskEngine.validate_execution_guards cfg st confirm pid now =
        (.error .dryRun, st)) ∧
    (cfg.cap_allow_trading = true → cfg.cap_dry_run = false →
      cfg.cap_require_explicit_confirm = true → confirm = false →
      RiskEngine.validate_execution_guards cfg st confirm pid now =
        (.error .confirmRequired, st)) ∧
    (cfg.cap_allow_trading = true → cfg.cap_dry_run = false →
      (cfg.cap_require_explicit_confirm = false ∨ confirm = true) →
      ∀ id, pid = some id → id ≠ "" →
        (lookupA st.preview_cache id = none →
          RiskEngine.validate_execution_guards cfg st confirm pid now =
            (.error .previewNotFound, st)) ∧
        (∀ p, lookupA st.preview_cache id = some p →
          (p.is_expired cfg.cap_preview_cache_ttl_s now = true →
            RiskEngine.validate_execution_guards cfg st confirm pid now =
              (.error .previewExpired,
               { st with preview_cache := eraseA st.preview_cache id })) ∧
          (p.is_expired cfg.cap_preview_cache_ttl_s now = false →
            p.all_checks_passed = false →
            RiskEngine.validate_execution_guards cfg st confirm pid now =
              (.error .previewChecksFailed, st)) ∧
          (p.is_expired cfg.cap_preview_cache_ttl_s now = false →
            p.all_checks_passed = true →
            RiskEngine.validate_execution_guards cfg st confirm pid now =
              (.ok (), st)))) := by
  refine ⟨?_, ?_, ?_, ?_⟩
  · intro h1
    simp [RiskEngine.validate_execution_guards, h1]
  · intro h1 h2
    simp [RiskEngine.validate_execution_guards, h1, h2]
  · intro h1 h2 h3 h4
    simp [RiskEngine.validate_execution_guards, h1, h2, h3, h4]
  · intro h1 h2 h3 id hpid hid
    subst hpid
    have hc : (cfg.cap_require_explicit_confirm && !confirm) = false := by
      rcases h3 with h | h <;> simp [h]
    have hne : id.isEmpty = false := by
      cases he : id.isEmpty
      · rfl
      · exact absurd ((String.isEmpty_iff id).mp he) hid
    have htr : optStrTruthy (some id) = true := by
      simp [optStrTruthy, hne]
    refine ⟨?_, ?_⟩
    · intro hnone
      simp [RiskEngine.validate_execution_guards, h1, h2, hc, htr,
        RiskEngine.get_preview, hnone]
    · intro p hp
      refine ⟨?_, ?_, ?_⟩
      · intro hexp
        simp [RiskEngine.validate_execution_guards, h1, h2, hc, htr,
          RiskEngine.get_preview, hp, hexp]
      · intro hexp hfail
        simp [RiskEngine.validate_execution_guards, h1, h2, hc, htr,
          RiskEngine.get_preview, hp, hexp, hfail]
      · intro hexp hpass
        simp [RiskEngine.validate_execution_guards, h1, h2, hc, htr,
          RiskEngine.get_preview, hp, hexp, hpass]

/-- A demo configuration with trading enabled, allowlist `GOLD`, explicit
confirmation required, dry-run off, TTL 120 s. -/
def cfgDemo : Config :=
  { cap_allow_trading := true, cap_allowed_epics := "GOLD",
    cap_max_position_size := 1, cap_max_orders_per_day := 20,
    cap_require_explicit_confirm := true, cap_dry_run := false,
    cap_default_account_id := none, cap_ws_enabled := false,
    cap_preview_cache_ttl_s := 120 }

/-- A cached preview with id `pid1`, all checks passed, created at instant 0. -/
def prevDemo : PreviewResult :=
  { preview_id := "pid1", normalized_request := [],
    checks := [⟨"trading_enabled", true, "Trading is enabled"⟩],
    all_checks_passed := true, estimated_entry := some 100,
    estimated_risk_notes := none, created_at := 0 }

/-- A risk-engine state holding `prevDemo` in the cache. -/
def stDemo : RiskState :=
  { preview_cache := [("pid1", prevDemo)], order_count := 0, order_count_date := none }

/-- Closed instance of C1: a configuration requiring explicit confirmation,
`confirm = false`, a nonempty preview id and a nonempty cache — the call
fails with the confirmation error and the state (hence the cache) is
untouched. -/
theorem validate_execution_guards_fail_fast_order_witness :
    RiskEngine.validate_execution_guards cfgDemo stDemo false (some "pid1") 500 =
      (.error .confirmRequired, stDemo) := by
  exact (validate_execution_guards_fail_fast_order _ _ _ _ _).2.2.1 rfl rfl rfl rfl

/-! ## C5: get_preview lazy expiry -/

/-- C5.  `get_preview` fails with not-found when the id is absent; when the
entry's age `now - created_at` has reached the TTL it evicts the entry on
that same read and fails with the expired error (under duplicate-free cache
keys the id no longer resolves afterwards); otherwise it returns the cached
entry with the cache untouched. -/
theorem get_preview_lazy_expiry (cfg : Config) (st : RiskState) (pid : String) (now : ℚ) :
    (lookupA st.preview_cache pid = none →
      RiskEngine.get_preview cfg st pid now = (.error .notFound, st)) ∧
    (∀ p, lookupA st.preview_cache pid = some p →
      ((cfg.cap_preview_cache_ttl_s : ℚ) ≤ now - p.created_at →
        RiskEngine.get_preview cfg st pid now =
          (.error .expired, { st with preview_cache := eraseA st.preview_cache pid }) ∧
        ((st.preview_cache.map Prod.fst).Nodup →
          lookupA (RiskEngine.get_preview cfg st pid now).2.preview_cache pid = none)) ∧
      (now - p.created_at < (cfg.cap_preview_cache_ttl_s : ℚ) →
        RiskEngine.get_preview cfg st pid now = (.ok p, st))) := by
  refine ⟨?_, ?_⟩
  · intro hnone
    simp [RiskEngine.get_preview, hnone]
  · intro p hp
    refine ⟨?_, ?_⟩
    · intro hage
      have hexp : p.is_expired cfg.cap_preview_cache_ttl_s now = true := by
        simp [PreviewResult.is_expired, hage]
      refine ⟨by simp [RiskEngine.get_preview, hp, hexp], ?_⟩
      intro hnodup
      simp [RiskEngine.get_preview, hp, hexp, lookupA_eraseA_self _ _ hnodup]
    · intro hage
      have hexp : p.is_expired cfg.cap_preview_cache_ttl_s now = false := by
        simp [PreviewResult.is_expired]
        exact hage
      simp [RiskEngine.get_preview, hp, hexp]

/-- Closed instance of C5: an entry inserted at instant 0 read at instant
121 under TTL 120 fails with the expired error and is evicted by that
read. -/
theorem get_preview_lazy_expiry_witness :
    RiskEngine.get_preview cfgDemo stDemo "pid1" 121 =
      (.error .expired, { stDemo with preview_cache := eraseA stDemo.preview_cache "pid1" }) ∧
    lookupA (RiskEngine.get_preview cfgDemo stDemo "pid1" 121).2.preview_cache "pid1" = none := by
  have h := ((get_preview_lazy_expiry cfgDemo stDemo "pid1" 121).2 prevDemo (by decide)).1
    (by norm_num [cfgDemo, prevDemo])
  exact ⟨h.1, h.2 (by decide)⟩

/-! ## C4: cached previews are immutable until deleted -/

/-- Every `PreviewResult` built by `preview_position` carries the uuid drawn
for that call. -/
theorem preview_position_result_id (cfg : Config) (st : RiskState)
    (req : PreviewPositionRequest) (net : Except String MarketData)
    (newId : String) (now : ℚ) (today : String) :
    (RiskEngine.preview_position cfg st req net newId now today).1.preview_id = newId := by
  unfold RiskEngine.preview_position
  dsimp only
  split
  · rfl
  · split
    · rfl
    · split
      · rfl
      · split
        · rfl
        · split
          · rfl
          · rfl

/-- `preview_position` never rebinds an existing cache key other than the
fresh uuid of the call. -/
theorem preview_position_cache_other (cfg : Config) (st : RiskState)
    (req : PreviewPositionRequest) (net : Except String MarketData)
    (newId : String) (now : ℚ) (today : String) (id : String) (h : newId ≠ id) :
    lookupA (RiskEngine.preview_position cfg st req net newId now today).2.preview_cache id =
      lookupA st.preview_cache id := by
  have hdaily : (RiskEngine.check_daily_limit cfg st today).2.preview_cache =
      st.preview_cache := by
    unfold RiskEngine.check_daily_limit
    dsimp only
    split <;> split <;> rfl
  unfold RiskEngine.preview_position
  dsimp only
  split
  · rfl
  · split
    · rfl
    · split
      · simp [hdaily]
      · split
        · simp [hdaily]
        · split
          · simp [hdaily]
          · simp [lookupA_insertA_ne _ _ _ _ h, hdaily]

/-- `preview_working_order` never rebinds an existing cache key other than
the fresh uuid of the call. -/
theorem preview_working_order_cache_other (cfg : Config) (st : RiskState)
    (req : PreviewWorkingOrderRequest) (net : Except String MarketData)
    (newId : String) (now : ℚ) (today : String) (id : String) (h : newId ≠ id) :
    lookupA (RiskEngine.preview_working_order cfg st req net newId now today).2.preview_cache
      id = lookupA st.preview_cache id := by
  have hpos := preview_position_cache_other cfg st req.toPositionRequest net newId now today id h
  have hid := preview_position_result_id cfg st req.toPositionRequest net newId now today
  unfold RiskEngine.preview_working_order
  dsimp only
  split
  · rw [lookupA_insertA_ne]
    · exact hpos
    · rw [hid]; exact h
  · exact hpos

/-- A `get_preview` read either leaves a cached binding intact or (when it
evicts the read id) removes it. -/
theorem get_preview_cache_other (cfg : Config) (st : RiskState) (pid : String)
    (now : ℚ) (id : String) (p : PreviewResult)
    (hmem : lookupA st.preview_cache id = some p)
    (hnodup : (st.preview_cache.map Prod.fst).Nodup) :
    lookupA (RiskEngine.get_preview cfg st pid now).2.preview_cache id = some p ∨
    lookupA (RiskEngine.get_preview cfg st pid now).2.preview_cache id = none := by
  unfold RiskEngine.get_preview
  cases hl : lookupA st.preview_cache pid with
  | none => left; simpa using hmem
  | some q =>
      by_cases he : q.is_expired cfg.cap_preview_cache_ttl_s now = true
      · by_cases hpq : pid = id
        · right
          subst hpq
          simp [he, lookupA_eraseA_self _ _ hnodup]
        · left
          simp [he, lookupA_eraseA_ne _ _ _ hpq, hmem]
      · left
        simp only [Bool.not_eq_true] at he
        simp [he, hmem]

/-- The state returned by `validate_execution_guards` is either the input
state or the state of the inner `get_preview` read. -/
theorem validate_execution_guards_state_cases (cfg : Config) (st : RiskState)
    (confirm : Bool) (pid : Option String) (now : ℚ) :
    (RiskEngine.validate_execution_guards cfg st confirm pid now).2 = st ∨
    (RiskEngine.validate_execution_guards cfg st confirm pid now).2 =
      (RiskEngine.get_preview cfg st (pid.getD "") now).2 := by
  unfold RiskEngine.validate_execution_guards
  dsimp only
  split
  · left; rfl
  · split
    · left; rfl
    · split
      · left; rfl
      · split
        · split
          · right; rfl
          · right; rfl
          · split
            · right; rfl
            · right; rfl
        · left; rfl

/-- C4.  Once a preview sits in the cache under key `id`, a later
`preview_position` or `preview_working_order` call (with its fresh uuid),
a `get_preview` read, or a guard validation either leaves the binding of
`id` exactly as it was or — only in the eviction cases of the read path —
removes it; no operation ever rebinds `id` to a different value. -/
theorem preview_cache_immutable_until_deletion
    (cfg : Config) (st : RiskState) (id : String) (p : PreviewResult)
    (hmem : lookupA st.preview_cache id = some p)
    (hnodup : (st.preview_cache.map Prod.fst).Nodup)
    (req : PreviewPositionRequest) (reqW : PreviewWorkingOrderRequest)
    (net netW : Except String MarketData) (newId newIdW : String)
    (now nowW nowG nowV : ℚ) (today todayW : String)
    (hfresh : newId ≠ id) (hfreshW : newIdW ≠ id)
    (pid : String) (pidV : Option String) (confirm : Bool) :
    lookupA (RiskEngine.preview_position cfg st req net newId now
        today).2.preview_cache id = some p ∧
    lookupA (RiskEngine.preview_working_order cfg st reqW netW newIdW nowW
        todayW).2.preview_cache id = some p ∧
    (lookupA (RiskEngine.get_preview cfg st pid nowG).2.preview_cache id = some p ∨
     lookupA (RiskEngine.get_preview cfg st pid nowG).2.preview_cache id = none) ∧
    (lookupA (RiskEngine.validate_execution_guards cfg st confirm pidV
        nowV).2.preview_cache id = some p ∨
     lookupA (RiskEngine.validate_execution_guards cfg st confirm pidV
        nowV).2.preview_cache id = none) := by
  refine ⟨?_, ?_, ?_, ?_⟩
  · rw [preview_position_cache_other cfg st req net newId now today id hfresh]
    exact hmem
  · rw [preview_working_order_cache_other cfg st reqW netW newIdW nowW todayW id hfreshW]
    exact hmem
  · exact get_preview_cache_other cfg st pid nowG id p hmem hnodup
  · rcases validate_execution_guards_state_cases cfg st confirm pidV nowV with hv | hv
    · left; rw [hv]; exact hmem
    · rw [hv]
      exact get_preview_cache_other cfg st (pidV.getD "") nowV id p hmem hnodup

/-- A position preview request for a disallowed market. -/
def reqDemo : PreviewPositionRequest :=
  { epic := "SILVER", direction := .BUY, size := 1/2,
    guaranteed_stop := false, trailing_stop := false,
    stop_level := none, stop_distance := none, stop_amount := none,
    profit_level := none, profit_distance := none, profit_amount := none }

/-- A working-order preview request for a disallowed market. -/
def reqWDemo : PreviewWorkingOrderRequest :=
  { epic := "SILVER", direction := .SELL, type := .LIMIT, level := 90, size := 1/2,
    guaranteed_stop := false, trailing_stop := false,
    stop_level := none, stop_distance := none, stop_amount := none,
    profit_level := none, profit_distance := none, profit_amount := none,
    good_till_date := none }

/-- Closed instance of C4: with `pid1` cached, a position preview, a
working-order preview, an (expiring) read and a guard validation each leave
the `pid1` binding equal to the original entry or gone, never changed. -/
theorem preview_cache_immutable_until_deletion_witness :
    lookupA (RiskEngine.preview_position cfgDemo stDemo reqDemo (.error "down") "pid2" 5
        "2026-01-01").2.preview_cache "pid1" = some prevDemo ∧
    lookupA (RiskEngine.preview_working_order cfgDemo stDemo reqWDemo (.error "down") "pid3" 6
        "2026-01-01").2.preview_cache "pid1" = some prevDemo ∧
    (lookupA (RiskEngine.get_preview cfgDemo stDemo "pid1" 121).2.preview_cache "pid1" =
        some prevDemo ∨
     lookupA (RiskEngine.get_preview cfgDemo stDemo "pid1" 121).2.preview_cache "pid1" =
        none) ∧
    (lookupA (RiskEngine.validate_execution_guards cfgDemo stDemo true (some "pid1")
        5).2.preview_cache "pid1" = some prevDemo ∨
     lookupA (RiskEngine.validate_execution_guards cfgDemo stDemo true (some "pid1")
        5).2.preview_cache "pid1" = none) :=
  preview_cache_immutable_until_deletion cfgDemo stDemo "pid1" prevDemo (by decide)
    (by decide) reqDemo reqWDemo (.error "down") (.error "down") "pid2" "pid3"
    5 6 121 5 "2026-01-01" "2026-01-01" (by decide) (by decide) "pid1" (some "pid1") true

/-! ## C8: preview for a disallowed market -/

/-- C8.  With trading enabled and the requested epic rejected by the
allowlist (`is_epic_allowed` is false exactly when, trading being on, the
allowlist does not start with the ALL wildcard and does not contain the
epic case-insensitively), `preview_position` short-circuits after the
second check: the result carries exactly the passed trading-enabled check
followed by the failed epic-allowed check, `all_checks_passed = false`, an
empty normalized request, and the engine state is untouched — no daily
limit, market-details or size check is reached. -/
theorem preview_position_disallowed_epic (cfg : Config) (st : RiskState)
    (req : PreviewPositionRequest) (net : Except String MarketData)
    (newId : String) (now : ℚ) (today : String)
    (ht : cfg.cap_allow_trading = true)
    (ha : cfg.is_epic_allowed req.epic = false) :
    (RiskEngine.preview_position cfg st req net newId now today).1.checks =
      [⟨"trading_enabled", true, "Trading is enabled"⟩,
       ⟨"epic_allowed", false, "Epic " ++ req.epic ++ " not in allowlist"⟩] ∧
    (RiskEngine.preview_position cfg st req net newId now today).1.all_checks_passed =
      false ∧
    (RiskEngine.preview_position cfg st req net newId now today).1.normalized_request =
      [] ∧
    (RiskEngine.preview_position cfg st req net newId now today).2 = st := by
  refine ⟨?_, ?_, ?_, ?_⟩ <;>
    simp [RiskEngine.preview_position, ht, ha, failResult]

/-- Closed instance of C8: previewing SILVER under an allowlist holding only
GOLD yields exactly the two leading checks and no normalized request. -/
theorem preview_position_disallowed_epic_witness :
    (RiskEngine.preview_position cfgDemo stDemo reqDemo (.error "down") "pid9" 7
        "2026-01-02").1.checks =
      [⟨"trading_enabled", true, "Trading is enabled"⟩,
       ⟨"epic_allowed", false, "Epic SILVER not in allowlist"⟩] ∧
    (RiskEngine.preview_position cfgDemo stDemo reqDemo (.error "down") "pid9" 7
        "2026-01-02").1.all_checks_passed = false ∧
    (RiskEngine.preview_position cfgDemo stDemo reqDemo (.error "down") "pid9" 7
        "2026-01-02").1.normalized_request = [] ∧
    (RiskEngine.preview_position cfgDemo stDemo reqDemo (.error "down") "pid9" 7
        "2026-01-02").2 = stDemo := by
  have h := preview_position_disallowed_epic cfgDemo stDemo reqDemo (.error "down")
    "pid9" 7 "2026-01-02" (by decide) (by decide)
  exact h

/-! ## C2: token bucket invariant -/

/-- A refill at a non-earlier instant keeps `0 ≤ tokens ≤ capacity` when the
refill rate is nonnegative. -/
theorem TokenBucket.refill_inv (b : TokenBucket) (now : ℚ)
    (hrate : 0 ≤ b.refill_rate) (hinv : b.inv) (hnow : b.last_refill ≤ now) :
    (b.refill now).inv := by
  obtain ⟨h0, hc⟩ := hinv
  constructor
  · have he : 0 ≤ (now - b.last_refill) * b.refill_rate :=
      mul_nonneg (by linarith) hrate
    have hnn : (0 : ℚ) ≤ b.tokens + (now - b.last_refill) * b.refill_rate := by linarith
    simp only [TokenBucket.refill, ratMin_eq_min, le_min_iff]
    exact ⟨le_trans h0 hc, hnn⟩
  · simp only [TokenBucket.refill, ratMin_eq_min]
    exact min_le_left _ _

/-- One `try_acquire` step (refill plus conditional deduction) preserves the
invariant for a nonnegative request. -/
theorem TokenBucket.try_acquire_inv (b : TokenBucket) (n now : ℚ)
    (hrate : 0 ≤ b.refill_rate) (hinv : b.inv) (hnow : b.last_refill ≤ now)
    (hn : 0 ≤ n) : ((b.try_acquire n now).2).inv := by
  have h1 := b.refill_inv now hrate hinv hnow
  unfold TokenBucket.try_acquire
  dsimp only
  split
  · rename_i hle
    obtain ⟨h0, hc⟩ := h1
    exact ⟨by simpa using hle, by dsimp only; linarith⟩
  · exact h1

/-- Ops change neither `capacity` nor `refill_rate`, and preserve the
invariant when valid. -/
theorem TokenBucket.applyOp_inv (b : TokenBucket) (op : BucketOp)
    (hrate : 0 ≤ b.refill_rate) (hinv : b.inv) (hv : op.validFor b = true) :
    (b.applyOp op).inv ∧ (b.applyOp op).capacity = b.capacity ∧
      (b.applyOp op).refill_rate = b.refill_rate := by
  cases op with
  | refillOp now =>
      simp only [BucketOp.validFor, decide_eq_true_eq] at hv
      exact ⟨b.refill_inv now hrate hinv hv, rfl, rfl⟩
  | tryAcquireOp n now =>
      simp only [BucketOp.validFor, Bool.and_eq_true, decide_eq_true_eq] at hv
      refine ⟨b.try_acquire_inv n now hrate hinv hv.1 hv.2, ?_, ?_⟩ <;>
        · unfold TokenBucket.applyOp TokenBucket.try_acquire TokenBucket.refill
          dsimp only
          split <;> rfl

/-- Invariant preservation over a whole valid operation sequence. -/
theorem TokenBucket.runOps_inv (ops : List BucketOp) (b : TokenBucket)
    (hrate : 0 ≤ b.refill_rate) (hinv : b.inv) (hv : b.validOps ops = true) :
    (b.runOps ops).inv ∧ (b.runOps ops).capacity = b.capacity := by
  induction ops generalizing b with
  | nil => exact ⟨hinv, rfl⟩
  | cons op rest ih =>
      simp only [TokenBucket.validOps, Bool.and_eq_true] at hv
      obtain ⟨hinv1, hcap1, hrate1⟩ := b.applyOp_inv op hrate hinv hv.1
      obtain ⟨hinv2, hcap2⟩ := ih (b.applyOp op) (hrate1 ▸ hrate) hinv1 hv.2
      exact ⟨hinv2, hcap2.trans hcap1⟩

/-- C2.  Starting from a freshly constructed bucket (full, with nonnegative
capacity and refill rate), after any finite well-formed sequence of refill
and acquisition operations — which covers `acquire`, `try_acquire` and
`available_tokens`, each being a finite composition of the two ops — the
token count satisfies `0 ≤ tokens ≤ capacity`: a refill adds
`elapsed × refill_rate` capped at the capacity and a deduction happens only
when at least the requested amount is available. -/
theorem tokenBucket_invariant (capacity refill_rate t0 : ℚ) (ops : List BucketOp)
    (hcap : 0 ≤ capacity) (hrate : 0 ≤ refill_rate)
    (hv : (TokenBucket.mk0 capacity refill_rate t0).validOps ops = true) :
    0 ≤ ((TokenBucket.mk0 capacity refill_rate t0).runOps ops).tokens ∧
    ((TokenBucket.mk0 capacity refill_rate t0).runOps ops).tokens ≤ capacity := by
  have h := TokenBucket.runOps_inv ops (TokenBucket.mk0 capacity refill_rate t0)
    hrate ⟨hcap, le_refl _⟩ hv
  have h2 := h.1.2
  rw [h.2] at h2
  exact ⟨h.1.1, h2⟩

/-- Closed instance of C2: the session-tier bucket (capacity 1, rate 1)
subjected to a grant, a premature retry, a refill and a second grant keeps
`0 ≤ tokens ≤ 1`. -/
theorem tokenBucket_invariant_witness :
    0 ≤ ((TokenBucket.mk0 1 1 0).runOps
      [.tryAcquireOp 1 0, .tryAcquireOp 1 0, .refillOp 1,
       .tryAcquireOp 1 2]).tokens ∧
    ((TokenBucket.mk0 1 1 0).runOps
      [.tryAcquireOp 1 0, .tryAcquireOp 1 0, .refillOp 1,
       .tryAcquireOp 1 2]).tokens ≤ 1 :=
  tokenBucket_invariant 1 1 0 _ (by norm_num) (by norm_num)
    (by norm_num [TokenBucket.validOps, BucketOp.validFor, TokenBucket.applyOp,
      TokenBucket.try_acquire, TokenBucket.refill, TokenBucket.mk0, ratMin])

/-! ## C7: a global-layer failure never consumes the inner bucket -/

/-- C7.  When the leading global-bucket acquisition of `acquire_session` or
`acquire_trading` comes back not-granted, the whole composite acquisition
returns not-granted and the corresponding inner bucket state is exactly the
input one — no deduction touched it, so any later observation of it yields
precisely what lazy refill alone produces. -/
theorem composite_acquire_global_failure_frame (rl : RateLimiter)
    (gTimes sTimes tTimes : List ℚ)
    (hg : (rl.global_limiter.acquireLoop 1 gTimes).1 = false) :
    (rl.acquire_session gTimes sTimes).1 = false ∧
    (rl.acquire_session gTimes sTimes).2.session_limiter = rl.session_limiter ∧
    (∀ t, ((rl.acquire_session gTimes sTimes).2.session_limiter).available_tokens t =
      (rl.session_limiter.refill t).tokens) ∧
    (rl.acquire_trading gTimes tTimes).1 = false ∧
    (rl.acquire_trading gTimes tTimes).2.trading_limiter = rl.trading_limiter ∧
    (∀ t, ((rl.acquire_trading gTimes tTimes).2.trading_limiter).available_tokens t =
      (rl.trading_limiter.refill t).tokens) := by
  refine ⟨?_, ?_, ?_, ?_, ?_, ?_⟩ <;>
    simp [RateLimiter.acquire_session, RateLimiter.acquire_trading,
      TokenBucket.available_tokens, hg]

/-- Closed instance of C7: an immediate global timeout (empty poll schedule)
fails both composite acquisitions and leaves the inner buckets exactly as
constructed. -/
theorem composite_acquire_global_failure_frame_witness :
    ((RateLimiter.mk0 0).acquire_session [] [0]).1 = false ∧
    ((RateLimiter.mk0 0).acquire_session [] [0]).2.session_limiter =
      (RateLimiter.mk0 0).session_limiter ∧
    (∀ t, (((RateLimiter.mk0 0).acquire_session [] [0]).2.session_limiter).available_tokens
        t = ((RateLimiter.mk0 0).session_limiter.refill t).tokens) ∧
    ((RateLimiter.mk0 0).acquire_trading [] [0]).1 = false ∧
    ((RateLimiter.mk0 0).acquire_trading [] [0]).2.trading_limiter =
      (RateLimiter.mk0 0).trading_limiter ∧
    (∀ t, (((RateLimiter.mk0 0).acquire_trading [] [0]).2.trading_limiter).available_tokens
        t = ((RateLimiter.mk0 0).trading_limiter.refill t).tokens) :=
  composite_acquire_global_failure_frame (RateLimiter.mk0 0) [] [0] [0] rfl

/-! ## C9: login is fail-closed on missing credential headers -/

/-- C9.  Whenever `login` actually performs the network call (forced, no
stored tokens, or stored tokens expired) and the response lacks the CST or
the X-SECURITY-TOKEN header, the call fails with the session error and both
the manager's stored tokens and the client's session tokens end cleared —
no previously held tokens survive. -/
theorem login_missing_token_fail_closed (cfg : Config) (st : SessionState)
    (force : Bool) (accP : Option String) (now : ℚ) (resp : LoginResponse)
    (switchNet : Except String Unit)
    (hcall : force = true ∨ st.tokens = none ∨
      ∃ tk, st.tokens = some tk ∧ tk.is_expired now = true)
    (hmiss : resp.header_cst = none ∨ resp.header_xst = none) :
    (SessionManager.login cfg st force accP now (.ok resp) switchNet).2 =
      .error .missingTokens ∧
    (SessionManager.login cfg st force accP now (.ok resp) switchNet).1.tokens = none ∧
    (SessionManager.login cfg st force accP now
      (.ok resp) switchNet).1.client_session_tokens = none := by
  have hnet : SessionManager.login cfg st force accP now (.ok resp) switchNet =
      SessionManager.login_network cfg st accP now (.ok resp) switchNet := by
    cases hst : st.tokens with
    | none => simp [SessionManager.login, hst]
    | some tk =>
        rcases hcall with hf | hn | ⟨tk2, htk2, hexp⟩
        · simp [SessionManager.login, hst, hf]
        · rw [hst] at hn
          cases hn
        · rw [hst] at htk2
          injection htk2 with he
          subst he
          simp [SessionManager.login, hst, hexp]
  rw [hnet]
  rcases hmiss with h | h <;>
    refine ⟨?_, ?_, ?_⟩ <;>
      simp [SessionManager.login_network, h, optStrTruthy]

/-- Closed instance of C9: a forced login against a response missing the CST
header fails and clears the previously stored manager and client tokens. -/
theorem login_missing_token_fail_closed_witness :
    (SessionManager.login cfgDemo
      { tokens := some { cst := "oldc", x_security_token := "oldx", last_used_at := 0 },
        account_id := some "acc",
        client_session_tokens :=
          some { cst := "oldc", x_security_token := "oldx", last_used_at := 0 } }
      true none 600
      (.ok { header_cst := none, header_xst := some "x", currentAccountId := none })
      (.ok ())).2 = .error .missingTokens ∧
    (SessionManager.login cfgDemo
      { tokens := some { cst := "oldc", x_security_token := "oldx", last_used_at := 0 },
        account_id := some "acc",
        client_session_tokens :=
          some { cst := "oldc", x_security_token := "oldx", last_used_at := 0 } }
      true none 600
      (.ok { header_cst := none, header_xst := some "x", currentAccountId := none })
      (.ok ())).1.tokens = none ∧
    (SessionManager.login cfgDemo
      { tokens := some { cst := "oldc", x_security_token := "oldx", last_used_at := 0 },
        account_id := some "acc",
        client_session_tokens :=
          some { cst := "oldc", x_security_token := "oldx", last_used_at := 0 } }
      true none 600
      (.ok { header_cst := none, header_xst := some "x", currentAccountId := none })
      (.ok ())).1.client_session_tokens = none :=
  login_missing_token_fail_closed cfgDemo _ true none 600 _ (.ok ())
    (Or.inl rfl) (Or.inl rfl)

/-! ## C3 and C6: the subscription cap and reconnection -/

/-- Distinct epic names `E0 … E(n-1)` used as concrete subscription sets. -/
def testEpics (n : ℕ) : List String :=
  (List.range n).map (fun k => "E" ++ toString k)

/-- Counterexample to C3 as stated: with 40 markets already subscribed,
requesting one more would bring the combined count to 41 — beyond the
protocol cap — yet `subscribe` succeeds and records a 41st market, because
the source only compares the length of the requested list against 40. -/
theorem subscribe_combined_cap_counterexample :
    40 < (testEpics 40).length + ["NEW"].length ∧
    WebSocketClient.subscribe
      { connected := true, subscribed_epics := testEpics 40, last_ping := none }
      ["NEW"] =
      .ok ({ connected := true, subscribed_epics := testEpics 40 ++ ["NEW"],
             last_ping := none },
           [{ destination := "market.NEW", action := "subscribe" }]) ∧
    (testEpics 40 ++ ["NEW"]).length = 41 := by
  refine ⟨by decide, rfl, by decide⟩

/-- C3 (amended).  `subscribe` checks only the requested list: it fails
(sending nothing and leaving the subscription set unchanged) exactly when
the requested epics alone number more than 40 — regardless of how many
markets are already subscribed — or when no connection is held; otherwise it
sends one directive per requested market and records each in the set. -/
theorem subscribe_cap_is_per_call (st : WebSocketClient) (epics : List String) :
    (40 < epics.length →
      WebSocketClient.subscribe st epics = .error .tooManyEpics) ∧
    (epics.length ≤ 40 → st.connected = false →
      WebSocketClient.subscribe st epics = .error .notConnected) ∧
    (epics.length ≤ 40 → st.connected = true →
      WebSocketClient.subscribe st epics =
        .ok ({ st with subscribed_epics := epics.foldl insertSet st.subscribed_epics },
             epics.map (fun e => ⟨"market." ++ e, "subscribe"⟩))) := by
  refine ⟨?_, ?_, ?_⟩
  · intro h
    simp [WebSocketClient.subscribe, h]
  · intro h hc
    simp [WebSocketClient.subscribe, Nat.not_lt.mpr h, hc]
  · intro h hc
    simp [WebSocketClient.subscribe, Nat.not_lt.mpr h, hc]

/-- Closed instance of the amended C3: one requested market on a fresh
connection is sent and recorded. -/
theorem subscribe_cap_is_per_call_witness :
    WebSocketClient.subscribe
      { connected := true, subscribed_epics := [], last_ping := none } ["GOLD"] =
    .ok ({ connected := true, subscribed_epics := ["GOLD"], last_ping := none },
         [{ destination := "market.GOLD", action := "subscribe" }]) := by
  have h := (subscribe_cap_is_per_call
    { connected := true, subscribed_epics := [], last_ping := none } ["GOLD"]).2.2
    (by decide) rfl
  simpa [insertSet] using h

/-- Adding a list of fresh distinct elements with `insertSet` is plain
concatenation. -/
theorem foldl_insertSet_eq_append :
    ∀ (l acc : List String), (acc ++ l).Nodup → l.foldl insertSet acc = acc ++ l := by
  intro l
  induction l with
  | nil => intro acc _; simp
  | cons x xs ih =>
      intro acc h
      have hx : x ∉ acc := by
        rw [List.nodup_append] at h
        exact fun hmem => h.2.2 hmem (List.mem_cons_self x xs)
      have hins : insertSet acc x = acc ++ [x] := by
        simp [insertSet, hx]
      have h2 : (acc ++ [x] ++ xs).Nodup := by
        rw [List.append_assoc]
        simpa [List.singleton_append] using h
      calc (x :: xs).foldl insertSet acc = xs.foldl insertSet (insertSet acc x) := rfl
        _ = xs.foldl insertSet (acc ++ [x]) := by rw [hins]
        _ = acc ++ [x] ++ xs := ih (acc ++ [x]) h2
        _ = acc ++ x :: xs := by simp

/-- Counterexample to C6 as stated: a subscription set of 41 markets is
reachable (two `subscribe` calls of at most 40 each), and on connection loss
with attempts remaining the mandated restoration does not happen — the
resubscription of the snapshot raises the over-cap error, the reconnection
fails, and the set (cleared by `close`) is not restored. -/
theorem reconnect_restore_counterexample :
    0 < 3 ∧
    WebSocketClient.reconnect_step
      { connected := true, subscribed_epics := testEpics 41, last_ping := none }
      0 3 5 = .error (.subscribeFailed .tooManyEpics) := by
  exact ⟨by decide, rfl⟩

/-- C6 (amended).  On connection loss with attempts remaining and a pre-loss
subscription set of at most 40 markets, the loop sleeps `2 ^ attempt`
seconds (the attempt counter after increment), fully reconnects, and
resubscribes so that the set right after reconnection equals the pre-loss
set exactly, even though `close` had cleared it; with a set beyond 40 the
restoration instead raises; when attempts are exhausted the stream fails
terminally. -/
theorem reconnect_restores_subscriptions (st : WebSocketClient)
    (count attempts : ℕ) (now : ℚ)
    (hconn : st.connected = true) (hnodup : st.subscribed_epics.Nodup)
    (hcard : st.subscribed_epics.length ≤ 40) :
    (count < attempts →
      st.reconnect_step count attempts now =
        .ok ({ connected := true, subscribed_epics := st.subscribed_epics,
               last_ping := some now }, count + 1, 2 ^ (count + 1))) ∧
    (attempts ≤ count →
      st.reconnect_step count attempts now = .error .terminal) := by
  constructor
  · intro hlt
    have hrestore : st.subscribed_epics.foldl insertSet [] = st.subscribed_epics := by
      simpa using foldl_insertSet_eq_append st.subscribed_epics [] (by simpa using hnodup)
    simp [WebSocketClient.reconnect_step, hlt, WebSocketClient.close, hconn,
      WebSocketClient.connectOk, WebSocketClient.subscribe, Nat.not_lt.mpr hcard,
      hrestore]
  · intro hge
    simp [WebSocketClient.reconnect_step, Nat.not_lt.mpr hge]

/-- Closed instance of the amended C6: one subscribed market, first loss,
three attempts allowed — the loop sleeps 2 s, reconnects and the set after
reconnection is again exactly that market. -/
theorem reconnect_restores_subscriptions_witness :
    WebSocketClient.reconnect_step
      { connected := true, subscribed_epics := ["GOLD"], last_ping := none } 0 3 7 =
    .ok ({ connected := true, subscribed_epics := ["GOLD"], last_ping := some 7 },
         1, 2) := by
  have h := (reconnect_restores_subscriptions
    { connected := true, subscribed_epics := ["GOLD"], last_ping := none }
    0 3 7 rfl (by decide) (by decide)).1 (by decide)
  simpa using h

/-! ## C10: message parsing -/

/-- A present key resolves to some value. -/
theorem lookupA_isSome_of_any {α : Type} (fs : List (String × α)) (k : String)
    (h : fs.any (fun p => p.1 = k) = true) : ∃ v, lookupA fs k = some v := by
  induction fs with
  | nil => simp at h
  | cons hd tl ih =>
      obtain ⟨k0, v0⟩ := hd
      by_cases hk : k0 = k
      · exact ⟨v0, by simp [lookupA, hk]⟩
      · simp only [List.any_cons, Bool.or_eq_true, decide_eq_true_eq] at h
        rcases h with h | h
        · exact absurd h hk
        · rcases ih h with ⟨v, hv⟩
          exact ⟨v, by simp [lookupA, hk, hv]⟩

/-- Counterexample to C10 as stated: a message whose payload is the number 5
(so it carries neither a bid nor an offer field) with a market destination
is not silently dropped — the membership test `"bid" in payload` raises an
uncaught `TypeError`, so the parser raises and the stream aborts. -/
theorem parse_message_drop_counterexample :
    parse_message (some (Json.obj
      [("destination", Json.strJ "market.GOLD"), ("payload", Json.num 5)]))
      "2026-01-01T00:00:00Z" = .error .typeError ∧
    (∀ t : PriceTick, stream_step (some (Json.obj
      [("destination", Json.strJ "market.GOLD"), ("payload", Json.num 5)]))
      "2026-01-01T00:00:00Z" ≠ .yieldTick t) ∧
    stream_step (some (Json.obj
      [("destination", Json.strJ "market.GOLD"), ("payload", Json.num 5)]))
      "2026-01-01T00:00:00Z" ≠ .skip := by
  refine ⟨rfl, ?_, ?_⟩
  · intro t h
    rw [show stream_step (some (Json.obj
      [("destination", Json.strJ "market.GOLD"), ("payload", Json.num 5)]))
      "2026-01-01T00:00:00Z" = .abort .typeError from rfl] at h
    cases h
  · intro h
    rw [show stream_step (some (Json.obj
      [("destination", Json.strJ "market.GOLD"), ("payload", Json.num 5)]))
      "2026-01-01T00:00:00Z" = .abort .typeError from rfl] at h
    cases h

/-- C10 (amended).  Soundness holds as claimed: every yielded tick comes
from a message whose body is a JSON object with a dict payload carrying both
a bid and an offer field and a string destination beginning with
`market.`.  Silent dropping holds for the well-shaped remainder: an
unparseable body, a non-object body, a body without a payload, a non-market
string destination, and a dict payload missing bid or offer are all dropped
as `None`.  (Unlike the original claim, a malformed message outside these
shapes — e.g. a non-dict payload passing the membership test or a non-string
destination — raises an uncaught `TypeError`/`AttributeError` instead of
being dropped.) -/
theorem parse_message_soundness_and_silent_drops (decoded : Option Json)
    (nowIso : String) :
    (∀ t, parse_message decoded nowIso = .ok (some t) →
      ∃ fields pf dest,
        decoded = some (Json.obj fields) ∧
        lookupA fields "payload" = some (Json.obj pf) ∧
        (lookupA fields "destination").getD (Json.strJ "") = Json.strJ dest ∧
        pyStartsWith dest "market." = true ∧
        pf.any (fun q => q.1 = "bid") = true ∧
        pf.any (fun q => q.1 = "offer") = true ∧
        t.epic = pyReplace dest "market." "") ∧
    (decoded = none → parse_message decoded nowIso = .ok none) ∧
    (∀ j, decoded = some j → (∀ fields, j ≠ Json.obj fields) →
      parse_message decoded nowIso = .ok none) ∧
    (∀ fields, decoded = some (Json.obj fields) →
      fields.any (fun q => q.1 = "payload") = false →
      parse_message decoded nowIso = .ok none) ∧
    (∀ fields dest, decoded = some (Json.obj fields) →
      fields.any (fun q => q.1 = "payload") = true →
      (lookupA fields "destination").getD (Json.strJ "") = Json.strJ dest →
      pyStartsWith dest "market." = false →
      parse_message decoded nowIso = .ok none) ∧
    (∀ fields pf dest, decoded = some (Json.obj fields) →
      fields.any (fun q => q.1 = "payload") = true →
      lookupA fields "payload" = some (Json.obj pf) →
      (lookupA fields "destination").getD (Json.strJ "") = Json.strJ dest →
      (pf.any (fun q => q.1 = "bid") = false ∨
       pf.any (fun q => q.1 = "offer") = false) →
      parse_message decoded nowIso = .ok none) := by
  refine ⟨?_, ?_, ?_, ?_, ?_, ?_⟩
  · -- soundness
    intro t h
    cases decoded with
    | none => simp [parse_message, parse_message_core, pure, Except.pure, PyExn.caught] at h
    | some data =>
        cases data with
        | null => simp [parse_message, parse_message_core, pure, Except.pure] at h
        | boolJ b => simp [parse_message, parse_message_core, pure, Except.pure] at h
        | num q => simp [parse_message, parse_message_core, pure, Except.pure] at h
        | strJ s => simp [parse_message, parse_message_core, pure, Except.pure] at h
        | arr xs => simp [parse_message, parse_message_core, pure, Except.pure] at h
        | obj fields =>
            by_cases hpay : fields.any (fun q => q.1 = "payload") = true
            case neg =>
              rw [Bool.not_eq_true] at hpay
              simp [parse_message, parse_message_core, pure, Except.pure, hpay] at h
            case pos =>
            cases hdestv : (lookupA fields "destination").getD (Json.strJ "") with
            | null => simp [parse_message, parse_message_core, pure, Except.pure, hpay, hdestv,
                PyExn.caught] at h
            | boolJ b => simp [parse_message, parse_message_core, pure, Except.pure, hpay, hdestv,
                PyExn.caught] at h
            | num q => simp [parse_message, parse_message_core, pure, Except.pure, hpay, hdestv,
                PyExn.caught] at h
            | arr xs => simp [parse_message, parse_message_core, pure, Except.pure, hpay, hdestv,
                PyExn.caught] at h
            | obj fs => simp [parse_message, parse_message_core, pure, Except.pure, hpay, hdestv,
                PyExn.caught] at h
            | strJ dest =>
            by_cases hstart : pyStartsWith dest "market." = true
            case neg =>
              rw [Bool.not_eq_true] at hstart
              simp [parse_message, parse_message_core, pure, Except.pure, hpay, hdestv, hstart] at h
            case pos =>
            by_cases hemp : (pyReplace dest "market." "").isEmpty = true
            case pos =>
              simp [parse_message, parse_message_core, pure, Except.pure, hpay, hdestv, hstart, hemp] at h
            case neg =>
            rw [Bool.not_eq_true] at hemp
            cases hpv : (lookupA fields "payload").getD Json.null with
            | null => simp [parse_message, parse_message_core, pure, Except.pure, hpay, hdestv, hstart,
                hemp, hpv, pyContains, Except.instMonad, Except.bind, PyExn.caught] at h
            | boolJ b => simp [parse_message, parse_message_core, pure, Except.pure, hpay, hdestv, hstart,
                hemp, hpv, pyContains, Except.instMonad, Except.bind, PyExn.caught] at h
            | num q => simp [parse_message, parse_message_core, pure, Except.pure, hpay, hdestv, hstart,
                hemp, hpv, pyContains, Except.instMonad, Except.bind, PyExn.caught] at h
            | strJ s =>
                by_cases hb : pyInStr "bid" s = true
                · by_cases ho : pyInStr "offer" s = true
                  · simp [parse_message, parse_message_core, pure, Except.pure, hpay, hdestv, hstart,
                      hemp, hpv, pyContains, pyIndex, hb, ho, Except.instMonad,
                      Except.bind, PyExn.caught] at h
                  · rw [Bool.not_eq_true] at ho
                    simp [parse_message, parse_message_core, pure, Except.pure, hpay, hdestv, hstart,
                      hemp, hpv, pyContains, hb, ho, Except.instMonad,
                      Except.bind, PyExn.caught] at h
                · rw [Bool.not_eq_true] at hb
                  simp [parse_message, parse_message_core, pure, Except.pure, hpay, hdestv, hstart,
                    hemp, hpv, pyContains, hb, Except.instMonad,
                    Except.bind, PyExn.caught] at h
            | arr xs =>
                by_cases hb : xs.any (fun j => j.eqStr "bid") = true
                · by_cases ho : xs.any (fun j => j.eqStr "offer") = true
                  · simp [parse_message, parse_message_core, pure, Except.pure, hpay, hdestv, hstart,
                      hemp, hpv, pyContains, pyIndex, hb, ho, Except.instMonad,
                      Except.bind, PyExn.caught] at h
                  · rw [Bool.not_eq_true] at ho
                    simp [parse_message, parse_message_core, pure, Except.pure, hpay, hdestv, hstart,
                      hemp, hpv, pyContains, hb, ho, Except.instMonad,
                      Except.bind, PyExn.caught] at h
                · rw [Bool.not_eq_true] at hb
                  simp [parse_message, parse_message_core, pure, Except.pure, hpay, hdestv, hstart,
                    hemp, hpv, pyContains, hb, Except.instMonad,
                    Except.bind, PyExn.caught] at h
            | obj pf =>
                have hlp : lookupA fields "payload" = some (Json.obj pf) := by
                  cases hl : lookupA fields "payload" with
                  | none => rw [hl] at hpv; simp at hpv
                  | some v => rw [hl] at hpv; simp at hpv; rw [hpv]
                by_cases hb : pf.any (fun q => q.1 = "bid") = true
                case neg =>
                  rw [Bool.not_eq_true] at hb
                  simp [parse_message, parse_message_core, pure, Except.pure, hpay, hdestv, hstart,
                    hemp, hpv, pyContains, hb, Except.instMonad,
                    Except.bind, PyExn.caught] at h
                case pos =>
                by_cases ho : pf.any (fun q => q.1 = "offer") = true
                case neg =>
                  rw [Bool.not_eq_true] at ho
                  simp [parse_message, parse_message_core, pure, Except.pure, hpay, hdestv, hstart,
                    hemp, hpv, pyContains, hb, ho, Except.instMonad,
                    Except.bind, PyExn.caught] at h
                case pos =>
                rcases lookupA_isSome_of_any pf "bid" hb with ⟨vb, hvb⟩
                rcases lookupA_isSome_of_any pf "offer" ho with ⟨vo, hvo⟩
                cases hfb : pyFloat vb with
                | error e =>
                    cases hec : e.caught <;>
                      simp [parse_message, parse_message_core, pure, Except.pure, hpay, hdestv, hstart,
                        hemp, hpv, pyContains, pyIndex, hb, ho, hvb, hfb, hec,
                        Except.instMonad, Except.bind] at h
                | ok qb =>
                    cases hfo : pyFloat vo with
                    | error e =>
                        cases hec : e.caught <;>
                          simp [parse_message, parse_message_core, pure, Except.pure, hpay, hdestv,
                            hstart, hemp, hpv, pyContains, pyIndex, hb, ho, hvb,
                            hvo, hfb, hfo, hec, Except.instMonad, Except.bind] at h
                    | ok qo =>
                        refine ⟨fields, pf, dest, rfl, hlp, hdestv, hstart, hb, ho, ?_⟩
                        simp [parse_message, parse_message_core, pure, Except.pure, hpay, hdestv,
                          hstart, hemp, hpv, pyContains, pyIndex, hb, ho, hvb,
                          hvo, hfb, hfo, Except.instMonad, Except.bind] at h
                        rw [← h]
  · intro h
    subst h
    rfl
  · intro j hj hno
    subst hj
    cases j with
    | obj fields => exact absurd rfl (hno fields)
    | null => rfl
    | boolJ b => rfl
    | num q => rfl
    | strJ s => rfl
    | arr xs => rfl
  · intro fields hdec hpay
    subst hdec
    simp [parse_message, parse_message_core, pure, Except.pure, hpay]
  · intro fields dest hdec hpay hdest hstart
    subst hdec
    simp [parse_message, parse_message_core, pure, Except.pure, hpay, hdest, hstart]
  · intro fields pf dest hdec hpay hlp hdest hmiss
    subst hdec
    have hgd : (lookupA fields "payload").getD Json.null = Json.obj pf := by
      rw [hlp]; rfl
    by_cases hstart : pyStartsWith dest "market." = true
    case neg =>
      rw [Bool.not_eq_true] at hstart
      simp [parse_message, parse_message_core, pure, Except.pure, hpay, hdest, hstart]
    case pos =>
    by_cases hemp : (pyReplace dest "market." "").isEmpty = true
    case pos =>
      simp [parse_message, parse_message_core, pure, Except.pure, hpay, hdest, hstart, hemp]
    case neg =>
    rw [Bool.not_eq_true] at hemp
    rcases hmiss with hm | hm
    · simp [parse_message, parse_message_core, pure, Except.pure, hpay, hdest, hstart, hemp, hgd,
        pyContains, hm, Except.instMonad, Except.bind]
    · by_cases hb : pf.any (fun q => q.1 = "bid") = true
      · simp [parse_message, parse_message_core, pure, Except.pure, hpay, hdest, hstart, hemp, hgd,
          pyContains, hb, hm, Except.instMonad, Except.bind]
      · rw [Bool.not_eq_true] at hb
        simp [parse_message, parse_message_core, pure, Except.pure, hpay, hdest, hstart, hemp, hgd,
          pyContains, hb, Except.instMonad, Except.bind]

/-- Closed instance of the amended C10: a heartbeat-style message (dict
payload without bid/offer) on a market destination is silently dropped. -/
theorem parse_message_soundness_and_silent_drops_witness :
    parse_message (some (Json.obj [("destination", Json.strJ "market.GOLD"),
      ("payload", Json.obj [("status", Json.strJ "ok")])])) "t" = .ok none :=
  (parse_message_soundness_and_silent_drops _ _).2.2.2.2.2
    [("destination", Json.strJ "market.GOLD"),
     ("payload", Json.obj [("status", Json.strJ "ok")])]
    [("status", Json.strJ "ok")] "market.GOLD" rfl rfl rfl rfl (Or.inl rfl)

end CapitalMcp
